import Mathlib

/-!
Shallow embedding of the analytics aggregator `calculateUserAnalytics` from
`src/components/Analytics/UserAnalyticsPage.tsx`.

JavaScript numbers are modelled as exact rationals, except where the source
takes a square root (`Math.sqrt` in the Sharpe-ratio computation), which is
modelled in the reals.  The two `forEach` loops with mutable local variables
(the drawdown walk and the streak walk) become `List.foldl` over an explicit
state record whose fields are the source's mutable locals.
-/

namespace Analytics

/-- A trading session, restricted to the one field the aggregator reads
(`sessions.reduce((sum, s) => sum + s.current_capital, 0)`). -/
structure TradingSession where
  current_capital : ℚ
deriving DecidableEq

/-- A trade record, restricted to the fields the aggregator reads.
`entry_side` is a string in the source, compared against the literals
`'Long'` and `'Short'`. -/
structure Trade where
  profit_loss : ℚ
  roi : ℚ
  entry_side : String
deriving DecidableEq

/-- The `riskLevel` union type `'Low' | 'Moderate' | 'High'`. -/
inductive RiskLevel where
  | Low
  | Moderate
  | High
deriving DecidableEq

/-- The `UserAnalytics` interface of the source file.  `sharpeRatio` lives in
ℝ because the source computes it through `Math.sqrt`; every other numeric
field only uses field arithmetic and stays in ℚ (counts in ℕ). -/
structure UserAnalytics where
  sharpeRatio : ℝ
  maxDrawdown : ℚ
  maxDrawdownAmount : ℚ
  profitFactor : ℚ
  totalTrades : ℕ
  winRate : ℚ
  totalPnL : ℚ
  longTrades : ℕ
  shortTrades : ℕ
  avgHoldTime : String
  bestTime : String
  avgRiskPerTrade : ℚ
  maxRisk : ℚ
  bestStreak : ℕ
  worstStreak : ℕ
  riskLevel : RiskLevel
  activeCapital : ℚ

/-- The mutable locals of the drawdown `forEach` loop:
`runningPnL`, `peak`, `maxDrawdown`, `maxDrawdownAmount`. -/
structure DrawdownState where
  runningPnL : ℚ
  peak : ℚ
  maxDrawdown : ℚ
  maxDrawdownAmount : ℚ
deriving DecidableEq

/-- One iteration of the drawdown loop body, on a trade's `profit_loss`. -/
def drawdownStep (st : DrawdownState) (pl : ℚ) : DrawdownState :=
  let runningPnL := st.runningPnL + pl
  let peak := if runningPnL > st.peak then runningPnL else st.peak
  let drawdown := peak - runningPnL
  if drawdown > st.maxDrawdownAmount then
    { runningPnL := runningPnL
      peak := peak
      maxDrawdown := if peak > 0 then drawdown / peak * 100 else 0
      maxDrawdownAmount := drawdown }
  else
    { st with runningPnL := runningPnL, peak := peak }

/-- The mutable locals of the streak `forEach` loop. -/
structure StreakState where
  currentWinStreak : ℕ
  currentLossStreak : ℕ
  bestStreak : ℕ
  worstStreak : ℕ
deriving DecidableEq

/-- One iteration of the streak loop body, on a trade's `profit_loss`. -/
def streakStep (st : StreakState) (pl : ℚ) : StreakState :=
  if pl > 0 then
    let w := st.currentWinStreak + 1
    { currentWinStreak := w
      currentLossStreak := 0
      bestStreak := max st.bestStreak w
      worstStreak := st.worstStreak }
  else
    let l := st.currentLossStreak + 1
    { currentWinStreak := 0
      currentLossStreak := l
      bestStreak := st.bestStreak
      worstStreak := max st.worstStreak l }

/-- `Math.max(...l)` for the nonempty list the source applies it to
(`trades.map(trade => Math.abs(trade.profit_loss))`); the `[]` case is
unreachable there (JavaScript would give `-Infinity`). -/
def mathMax : List ℚ → ℚ
  | [] => 0
  | x :: xs => xs.foldl max x

/-- The aggregator, line by line from the source.  `trades.reduce` with an
additive body becomes `List.foldl`, the two `forEach` loops become folds of
`drawdownStep` / `streakStep` over the trades' `profit_loss`. -/
noncomputable def calculateUserAnalytics (sessions : List TradingSession)
    (trades : List Trade) : UserAnalytics :=
  if trades.length = 0 then
    { sharpeRatio := 0
      maxDrawdown := 0
      maxDrawdownAmount := 0
      profitFactor := 0
      totalTrades := 0
      winRate := 0
      totalPnL := 0
      longTrades := 0
      shortTrades := 0
      avgHoldTime := "0h"
      bestTime := "N/A"
      avgRiskPerTrade := 0
      maxRisk := 0
      bestStreak := 0
      worstStreak := 0
      riskLevel := RiskLevel.Low
      activeCapital := sessions.foldl (fun sum s => sum + s.current_capital) 0 }
  else
    let totalPnL : ℚ := trades.foldl (fun sum trade => sum + trade.profit_loss) 0
    let winningTrades := trades.filter (fun trade => trade.profit_loss > 0)
    let losingTrades := trades.filter (fun trade => trade.profit_loss < 0)
    let totalProfit : ℚ := winningTrades.foldl (fun sum trade => sum + trade.profit_loss) 0
    let totalLoss : ℚ := |losingTrades.foldl (fun sum trade => sum + trade.profit_loss) 0|
    let profitFactor : ℚ :=
      if totalLoss > 0 then totalProfit / totalLoss
      else if totalProfit > 0 then 999 else 0
    let winRate : ℚ := ((winningTrades.length : ℚ) / (trades.length : ℚ)) * 100
    let dd := trades.foldl (fun st trade => drawdownStep st trade.profit_loss)
      ⟨0, 0, 0, 0⟩
    let returns := trades.map (fun trade => trade.roi)
    let avgReturn : ℚ := returns.foldl (fun sum r => sum + r) 0 / (returns.length : ℚ)
    let variance : ℚ :=
      returns.foldl (fun sum r => sum + (r - avgReturn) ^ 2) 0 / (returns.length : ℚ)
    let stdDev : ℝ := Real.sqrt (variance : ℝ)
    let sharpeRatio : ℝ := if stdDev > 0 then (avgReturn : ℝ) / stdDev else 0
    let sk := trades.foldl (fun st trade => streakStep st trade.profit_loss)
      ⟨0, 0, 0, 0⟩
    let avgRiskPerTrade : ℚ :=
      trades.foldl (fun sum trade => sum + |trade.profit_loss|) 0 / (trades.length : ℚ)
    let maxRisk : ℚ := mathMax (trades.map (fun trade => |trade.profit_loss|))
    let riskLevel :=
      if dd.maxDrawdown > 20 then RiskLevel.High
      else if dd.maxDrawdown > 10 then RiskLevel.Moderate
      else RiskLevel.Low
    { sharpeRatio := sharpeRatio
      maxDrawdown := dd.maxDrawdown
      maxDrawdownAmount := dd.maxDrawdownAmount
      profitFactor := profitFactor
      totalTrades := trades.length
      winRate := winRate
      totalPnL := totalPnL
      longTrades := (trades.filter (fun t => t.entry_side = "Long")).length
      shortTrades := (trades.filter (fun t => t.entry_side = "Short")).length
      avgHoldTime := "2.5h"
      bestTime := "Morning"
      avgRiskPerTrade := avgRiskPerTrade
      maxRisk := maxRisk
      bestStreak := sk.bestStreak
      worstStreak := sk.worstStreak
      riskLevel := riskLevel
      activeCapital := sessions.foldl (fun sum s => sum + s.current_capital) 0 }

/-- A trade carrying only a P&L figure, for concrete test sequences. -/
def tradeOfPnl (pl : ℚ) : Trade :=
  { profit_loss := pl, roi := 0, entry_side := "Long" }

/-- The drawdown walk as the spec words it (step 5), on the bare P&L
sequence: maintain a running cumulative sum and a running peak (the maximum
cumulative value seen so far), both initialized to zero; at each step
`drawdown = peak - running`, and when it exceeds the best-seen amount record
it and recompute the percentage as `drawdown / peak * 100` when `peak > 0`,
else `0`.  Arguments: running, peak, best amount, best percentage, sequence;
the result is `(maxDrawdownAmount, maxDrawdownPercent)`. -/
def specDrawdown : ℚ → ℚ → ℚ → ℚ → List ℚ → ℚ × ℚ
  | _, _, bestAmt, bestPct, [] => (bestAmt, bestPct)
  | running, peak, bestAmt, bestPct, pl :: rest =>
    let running' := running + pl
    let peak' := max peak running'
    let drawdown := peak' - running'
    if drawdown > bestAmt then
      specDrawdown running' peak' drawdown
        (if peak' > 0 then drawdown / peak' * 100 else 0) rest
    else
      specDrawdown running' peak' bestAmt bestPct rest

/-- The streak walk as the spec words it (step 7), on the bare P&L sequence:
two counters, a `profit_loss > 0` trade increments the win counter and resets
the loss counter, every `profit_loss <= 0` trade resets the win counter and
increments the loss counter; track the maximum each counter reaches.
Arguments: win run, loss run, best, worst, sequence; the result is
`(bestStreak, worstStreak)`. -/
def specStreaks : ℕ → ℕ → ℕ → ℕ → List ℚ → ℕ × ℕ
  | _, _, best, worst, [] => (best, worst)
  | win, loss, best, worst, pl :: rest =>
    if pl > 0 then specStreaks (win + 1) 0 (max best (win + 1)) worst rest
    else specStreaks 0 (loss + 1) best (max worst (loss + 1)) rest

/-- Gross profit as the spec words it: the sum of `profit_loss` over the
winning (`profit_loss > 0`) trades. -/
def grossProfit (trades : List Trade) : ℚ :=
  ((trades.filter (fun t => t.profit_loss > 0)).map (fun t => t.profit_loss)).sum

/-- Gross loss as the spec words it: the absolute value of the sum of
`profit_loss` over the losing (`profit_loss < 0`) trades. -/
def grossLoss (trades : List Trade) : ℚ :=
  |((trades.filter (fun t => t.profit_loss < 0)).map (fun t => t.profit_loss)).sum|

/-- Arithmetic mean of a sequence, as the spec words it. -/
def specMean (xs : List ℚ) : ℚ :=
  xs.sum / (xs.length : ℚ)

/-- Population variance: squared-deviation sum divided by the count
(not count − 1), as the spec words it. -/
def specPopVariance (xs : List ℚ) : ℚ :=
  (xs.map (fun x => (x - specMean xs) ^ 2)).sum / (xs.length : ℚ)

/-- Population standard deviation, as the spec words it. -/
noncomputable def specPopStdDev (xs : List ℚ) : ℝ :=
  Real.sqrt ((specPopVariance xs : ℚ) : ℝ)

/-- Checked rational division: `none` instead of a division by zero. -/
def divQ (a b : ℚ) : Option ℚ :=
  if b = 0 then none else some (a / b)

/-- Checked real division: `none` instead of a division by zero. -/
noncomputable def divR (a b : ℝ) : Option ℝ :=
  if b = 0 then none else some (a / b)

/-- Checked square root: `none` on a negative argument (where JavaScript's
`Math.sqrt` would produce `NaN`). -/
noncomputable def sqrtR (x : ℝ) : Option ℝ :=
  if x < 0 then none else some (Real.sqrt x)

/-- Checked `Math.max(...l)`: `none` on the empty spread (where JavaScript
would produce `-Infinity`). -/
def mathMaxChecked : List ℚ → Option ℚ
  | [] => none
  | x :: xs => some (xs.foldl max x)

/-- `drawdownStep` with its division checked: the percentage division by
`peak` happens only under the source's `peak > 0` guard. -/
def drawdownStepChecked (st : DrawdownState) (pl : ℚ) : Option DrawdownState :=
  let runningPnL := st.runningPnL + pl
  let peak := if runningPnL > st.peak then runningPnL else st.peak
  let drawdown := peak - runningPnL
  if drawdown > st.maxDrawdownAmount then
    if peak > 0 then
      (divQ drawdown peak).map fun q =>
        { runningPnL := runningPnL
          peak := peak
          maxDrawdown := q * 100
          maxDrawdownAmount := drawdown }
    else
      some { runningPnL := runningPnL
             peak := peak
             maxDrawdown := 0
             maxDrawdownAmount := drawdown }
  else
    some { st with runningPnL := runningPnL, peak := peak }

/-- The aggregator with every division, square root and `Math.max` spread
replaced by its checked variant, `none` marking a division by zero or a
non-finite sentinel that the unchecked source would silently produce.  The
guards (`totalLoss > 0`, `peak > 0`, `stdDev > 0`, nonempty branch) are the
source's own. -/
noncomputable def calculateUserAnalyticsChecked (sessions : List TradingSession)
    (trades : List Trade) : Option UserAnalytics :=
  if trades.length = 0 then
    some
      { sharpeRatio := 0
        maxDrawdown := 0
        maxDrawdownAmount := 0
        profitFactor := 0
        totalTrades := 0
        winRate := 0
        totalPnL := 0
        longTrades := 0
        shortTrades := 0
        avgHoldTime := "0h"
        bestTime := "N/A"
        avgRiskPerTrade := 0
        maxRisk := 0
        bestStreak := 0
        worstStreak := 0
        riskLevel := RiskLevel.Low
        activeCapital := sessions.foldl (fun sum s => sum + s.current_capital) 0 }
  else do
    let totalPnL : ℚ := trades.foldl (fun sum trade => sum + trade.profit_loss) 0
    let winningTrades := trades.filter (fun trade => trade.profit_loss > 0)
    let losingTrades := trades.filter (fun trade => trade.profit_loss < 0)
    let totalProfit : ℚ := winningTrades.foldl (fun sum trade => sum + trade.profit_loss) 0
    let totalLoss : ℚ := |losingTrades.foldl (fun sum trade => sum + trade.profit_loss) 0|
    let profitFactor : ℚ ←
      (if totalLoss > 0 then divQ totalProfit totalLoss
        else some (if totalProfit > 0 then 999 else 0))
    let winRateRatio : ℚ ← divQ (winningTrades.length : ℚ) (trades.length : ℚ)
    let winRate : ℚ := winRateRatio * 100
    let dd ← trades.foldlM (fun st trade => drawdownStepChecked st trade.profit_loss)
      (⟨0, 0, 0, 0⟩ : DrawdownState)
    let returns := trades.map (fun trade => trade.roi)
    let avgReturn : ℚ ← divQ (returns.foldl (fun sum r => sum + r) 0) (returns.length : ℚ)
    let variance : ℚ ←
      divQ (returns.foldl (fun sum r => sum + (r - avgReturn) ^ 2) 0) (returns.length : ℚ)
    let stdDev : ℝ ← sqrtR ((variance : ℚ) : ℝ)
    let sharpeRatio : ℝ ←
      (if stdDev > 0 then divR ((avgReturn : ℚ) : ℝ) stdDev else some 0)
    let sk := trades.foldl (fun st trade => streakStep st trade.profit_loss)
      (⟨0, 0, 0, 0⟩ : StreakState)
    let avgRiskPerTrade : ℚ ←
      divQ (trades.foldl (fun sum trade => sum + |trade.profit_loss|) 0) (trades.length : ℚ)
    let maxRisk : ℚ ← mathMaxChecked (trades.map (fun trade => |trade.profit_loss|))
    let riskLevel :=
      if dd.maxDrawdown > 20 then RiskLevel.High
      else if dd.maxDrawdown > 10 then RiskLevel.Moderate
      else RiskLevel.Low
    some
      { sharpeRatio := sharpeRatio
        maxDrawdown := dd.maxDrawdown
        maxDrawdownAmount := dd.maxDrawdownAmount
        profitFactor := profitFactor
        totalTrades := trades.length
        winRate := winRate
        totalPnL := totalPnL
        longTrades := (trades.filter (fun t => t.entry_side = "Long")).length
        shortTrades := (trades.filter (fun t => t.entry_side = "Short")).length
        avgHoldTime := "2.5h"
        bestTime := "Morning"
        avgRiskPerTrade := avgRiskPerTrade
        maxRisk := maxRisk
        bestStreak := sk.bestStreak
        worstStreak := sk.worstStreak
        riskLevel := riskLevel
        activeCapital := sessions.foldl (fun sum s => sum + s.current_capital) 0 }

/-! Helper lemmas: additive folds are sums, the source's inline maximum is
`max`, and the two loop folds compute the spec's walks. -/

theorem foldl_add_eq {α : Type} (f : α → ℚ) (l : List α) :
    ∀ init : ℚ, l.foldl (fun s x => s + f x) init = init + (l.map f).sum := by
  induction l with
  | nil => intro init; simp
  | cons x xs ih =>
    intro init
    rw [List.foldl_cons, ih, List.map_cons, List.sum_cons]
    ring

theorem foldl_add_self (l : List ℚ) :
    ∀ init : ℚ, l.foldl (fun s x => s + x) init = init + l.sum := by
  induction l with
  | nil => intro init; simp
  | cons x xs ih =>
    intro init
    rw [List.foldl_cons, ih, List.sum_cons]
    ring

theorem ite_gt_eq_max (a b : ℚ) : (if b > a then b else a) = max a b := by
  rcases le_or_lt b a with h | h
  · rw [max_eq_left h, if_neg (not_lt.mpr h)]
  · rw [max_eq_right h.le, if_pos h]

theorem foldl_capital (l : List TradingSession) :
    l.foldl (fun sum s => sum + s.current_capital) 0 =
      (l.map (fun s => s.current_capital)).sum := by
  rw [foldl_add_eq (fun s => s.current_capital) l 0, zero_add]

theorem foldl_profit_loss (l : List Trade) :
    l.foldl (fun sum trade => sum + trade.profit_loss) 0 =
      (l.map (fun t => t.profit_loss)).sum := by
  rw [foldl_add_eq (fun t => t.profit_loss) l 0, zero_add]

theorem specDrawdown_foldl (l : List Trade) :
    ∀ st : DrawdownState,
      specDrawdown st.runningPnL st.peak st.maxDrawdownAmount st.maxDrawdown
          (l.map (fun t => t.profit_loss)) =
        ((l.foldl (fun st t => drawdownStep st t.profit_loss) st).maxDrawdownAmount,
          (l.foldl (fun st t => drawdownStep st t.profit_loss) st).maxDrawdown) := by
  induction l with
  | nil => intro st; simp [specDrawdown]
  | cons t rest ih =>
    intro st
    rw [List.map_cons, List.foldl_cons]
    show specDrawdown st.runningPnL st.peak st.maxDrawdownAmount st.maxDrawdown
        (t.profit_loss :: rest.map (fun t => t.profit_loss)) = _
    rw [specDrawdown, drawdownStep]
    rw [ite_gt_eq_max st.peak (st.runningPnL + t.profit_loss)]
    by_cases hd : max st.peak (st.runningPnL + t.profit_loss) -
        (st.runningPnL + t.profit_loss) > st.maxDrawdownAmount
    · rw [if_pos hd, if_pos hd]
      exact ih ⟨st.runningPnL + t.profit_loss,
        max st.peak (st.runningPnL + t.profit_loss),
        if max st.peak (st.runningPnL + t.profit_loss) > 0 then
          (max st.peak (st.runningPnL + t.profit_loss) -
              (st.runningPnL + t.profit_loss)) /
            max st.peak (st.runningPnL + t.profit_loss) * 100
        else 0,
        max st.peak (st.runningPnL + t.profit_loss) - (st.runningPnL + t.profit_loss)⟩
    · rw [if_neg hd, if_neg hd]
      exact ih ⟨st.runningPnL + t.profit_loss,
        max st.peak (st.runningPnL + t.profit_loss),
        st.maxDrawdown, st.maxDrawdownAmount⟩

theorem specStreaks_foldl (l : List Trade) :
    ∀ st : StreakState,
      specStreaks st.currentWinStreak st.currentLossStreak st.bestStreak st.worstStreak
          (l.map (fun t => t.profit_loss)) =
        ((l.foldl (fun st t => streakStep st t.profit_loss) st).bestStreak,
          (l.foldl (fun st t => streakStep st t.profit_loss) st).worstStreak) := by
  induction l with
  | nil => intro st; simp [specStreaks]
  | cons t rest ih =>
    intro st
    rw [List.map_cons, List.foldl_cons]
    show specStreaks st.currentWinStreak st.currentLossStreak st.bestStreak st.worstStreak
        (t.profit_loss :: rest.map (fun t => t.profit_loss)) = _
    rw [specStreaks, streakStep]
    by_cases hp : t.profit_loss > 0
    · rw [if_pos hp, if_pos hp]
      exact ih ⟨st.currentWinStreak + 1, 0,
        max st.bestStreak (st.currentWinStreak + 1), st.worstStreak⟩
    · rw [if_neg hp, if_neg hp]
      exact ih ⟨0, st.currentLossStreak + 1,
        st.bestStreak, max st.worstStreak (st.currentLossStreak + 1)⟩

/-- C1.  `calculateUserAnalytics` computes `maxDrawdownAmount` and
`maxDrawdown` (the percentage) by the spec's drawdown walk over the ordered
P&L sequence, with running sum and peak initialized to zero; in particular
for the P&L sequence `[10, -20, 5]` it returns amount `20` and percentage
`200`. -/
theorem drawdown_follows_spec (sessions : List TradingSession) (trades : List Trade) :
    ((calculateUserAnalytics sessions trades).maxDrawdownAmount,
        (calculateUserAnalytics sessions trades).maxDrawdown) =
      specDrawdown 0 0 0 0 (trades.map (fun t => t.profit_loss)) ∧
    (calculateUserAnalytics sessions ([10, -20, 5].map tradeOfPnl)).maxDrawdownAmount = 20 ∧
    (calculateUserAnalytics sessions ([10, -20, 5].map tradeOfPnl)).maxDrawdown = 200 := by
  refine ⟨?_, ?_, ?_⟩
  · by_cases h : trades.length = 0
    · rw [List.length_eq_zero] at h
      subst h
      simp [calculateUserAnalytics, specDrawdown]
    · simp only [calculateUserAnalytics, if_neg h]
      exact (specDrawdown_foldl trades ⟨0, 0, 0, 0⟩).symm
  · norm_num [calculateUserAnalytics, drawdownStep, tradeOfPnl, List.foldl]
  · norm_num [calculateUserAnalytics, drawdownStep, tradeOfPnl, List.foldl]

/-- C2.  `calculateUserAnalytics` computes `bestStreak` and `worstStreak` by
the spec's streak walk (`profit_loss > 0` extends the win run, anything else
— including exactly zero — extends the loss run), and the results are the
maximum values the two counters reach; in particular for the outcome
sequence win, win, loss, win, loss, loss, loss (P&L `[1, 2, -1, 3, 0, -2, -1]`,
the fifth trade a zero-P&L loss) it returns `bestStreak = 2` and
`worstStreak = 3`. -/
theorem streaks_follow_spec (sessions : List TradingSession) (trades : List Trade) :
    ((calculateUserAnalytics sessions trades).bestStreak,
        (calculateUserAnalytics sessions trades).worstStreak) =
      specStreaks 0 0 0 0 (trades.map (fun t => t.profit_loss)) ∧
    (calculateUserAnalytics sessions ([1, 2, -1, 3, 0, -2, -1].map tradeOfPnl)).bestStreak = 2 ∧
    (calculateUserAnalytics sessions ([1, 2, -1, 3, 0, -2, -1].map tradeOfPnl)).worstStreak = 3 := by
  refine ⟨?_, ?_, ?_⟩
  · by_cases h : trades.length = 0
    · rw [List.length_eq_zero] at h
      subst h
      simp [calculateUserAnalytics, specStreaks]
    · simp only [calculateUserAnalytics, if_neg h]
      exact (specStreaks_foldl trades ⟨0, 0, 0, 0⟩).symm
  · norm_num [calculateUserAnalytics, streakStep, tradeOfPnl, List.foldl]
  · norm_num [calculateUserAnalytics, streakStep, tradeOfPnl, List.foldl]

/-- C3.  For a non-empty trade sequence, `profitFactor` is gross profit over
gross loss when there are losses, the sentinel `999` when there are profits
but no losses, and `0` otherwise. -/
theorem profitFactor_follows_spec (sessions : List TradingSession) (trades : List Trade)
    (h : trades ≠ []) :
    (calculateUserAnalytics sessions trades).profitFactor =
      if grossLoss trades > 0 then grossProfit trades / grossLoss trades
      else if grossProfit trades > 0 then 999 else 0 := by
  have hlen : ¬ trades.length = 0 := by simpa [List.length_eq_zero] using h
  simp only [calculateUserAnalytics, if_neg hlen, foldl_profit_loss]
  rfl

theorem profitFactor_follows_spec_witness :
    (calculateUserAnalytics [] [tradeOfPnl 10]).profitFactor =
      if grossLoss [tradeOfPnl 10] > 0 then
        grossProfit [tradeOfPnl 10] / grossLoss [tradeOfPnl 10]
      else if grossProfit [tradeOfPnl 10] > 0 then 999 else 0 :=
  profitFactor_follows_spec [] [tradeOfPnl 10] (by simp)

/-- The positivity guard on a nonnegative quantity coincides with the
zero test. -/
theorem ite_pos_of_nonneg {x : ℝ} (hx : 0 ≤ x) (a : ℝ) :
    (if x > 0 then a else 0) = if x = 0 then 0 else a := by
  rcases eq_or_lt_of_le hx with h | h
  · rw [if_neg (by rw [← h]; exact lt_irrefl 0), if_pos h.symm]
  · rw [if_pos h, if_neg (ne_of_gt h)]

/-- C4.  For a non-empty trade sequence, `sharpeRatio` is the arithmetic mean
of the trades' `roi` divided by their population standard deviation, and
exactly `0` when that standard deviation is zero. -/
theorem sharpe_follows_spec (sessions : List TradingSession) (trades : List Trade)
    (h : trades ≠ []) :
    (calculateUserAnalytics sessions trades).sharpeRatio =
      if specPopStdDev (trades.map (fun t => t.roi)) = 0 then 0
      else ((specMean (trades.map (fun t => t.roi)) : ℚ) : ℝ) /
        specPopStdDev (trades.map (fun t => t.roi)) := by
  have hlen : ¬ trades.length = 0 := by simpa [List.length_eq_zero] using h
  simp only [calculateUserAnalytics, if_neg hlen]
  have hmean : (trades.map (fun t => t.roi)).foldl (fun sum r => sum + r) 0 /
      ((trades.map (fun t => t.roi)).length : ℚ) = specMean (trades.map (fun t => t.roi)) := by
    rw [foldl_add_self, zero_add, specMean]
  rw [hmean]
  have hvar : (trades.map (fun t => t.roi)).foldl
      (fun sum r => sum + (r - specMean (trades.map (fun t => t.roi))) ^ 2) 0 /
      ((trades.map (fun t => t.roi)).length : ℚ) =
      specPopVariance (trades.map (fun t => t.roi)) := by
    rw [foldl_add_eq (fun r => (r - specMean (trades.map (fun t => t.roi))) ^ 2), zero_add,
      specPopVariance]
  rw [hvar]
  rw [show Real.sqrt ((specPopVariance (trades.map (fun t => t.roi)) : ℚ) : ℝ) =
    specPopStdDev (trades.map (fun t => t.roi)) from rfl]
  exact ite_pos_of_nonneg (Real.sqrt_nonneg _) _

theorem sharpe_follows_spec_witness :
    (calculateUserAnalytics []
      [{ profit_loss := 0, roi := 5, entry_side := "Long" }]).sharpeRatio = 0 := by
  have h := sharpe_follows_spec []
    [{ profit_loss := 0, roi := 5, entry_side := "Long" }] (by simp)
  have hσ : specPopStdDev
      (([{ profit_loss := 0, roi := 5, entry_side := "Long" }] : List Trade).map
        (fun t => t.roi)) = 0 := by
    rw [specPopStdDev]
    norm_num [specPopVariance, specMean]
  rw [h, if_pos hσ]

/-- C5.  For the empty trade sequence, every ratio-based metric is exactly
zero, `riskLevel` defaults to `Low`, and `activeCapital` is still the sum of
the sessions' `current_capital`. -/
theorem empty_trades_defaults (sessions : List TradingSession) :
    (calculateUserAnalytics sessions []).winRate = 0 ∧
    (calculateUserAnalytics sessions []).sharpeRatio = 0 ∧
    (calculateUserAnalytics sessions []).maxDrawdown = 0 ∧
    (calculateUserAnalytics sessions []).profitFactor = 0 ∧
    (calculateUserAnalytics sessions []).riskLevel = RiskLevel.Low ∧
    (calculateUserAnalytics sessions []).activeCapital =
      (sessions.map (fun s => s.current_capital)).sum := by
  simp [calculateUserAnalytics, foldl_capital]

/-- C6.  For a non-empty trade sequence, `winRate` is the number of trades
with `profit_loss > 0` over the total count, times 100; a zero-P&L trade
belongs to neither the winning nor the losing filter. -/
theorem winRate_follows_spec (sessions : List TradingSession) (trades : List Trade)
    (h : trades ≠ []) :
    (calculateUserAnalytics sessions trades).winRate =
      ((trades.filter (fun t => t.profit_loss > 0)).length : ℚ) /
        (trades.length : ℚ) * 100 ∧
    ∀ t ∈ trades, t.profit_loss = 0 →
      t ∉ trades.filter (fun t => t.profit_loss > 0) ∧
      t ∉ trades.filter (fun t => t.profit_loss < 0) := by
  constructor
  · have hlen : ¬ trades.length = 0 := by simpa [List.length_eq_zero] using h
    simp only [calculateUserAnalytics, if_neg hlen]
  · intro t _ h0
    constructor <;> simp [List.mem_filter, h0]

theorem winRate_follows_spec_witness :
    (calculateUserAnalytics [] [tradeOfPnl 10, tradeOfPnl (-5)]).winRate = 50 := by
  have h := (winRate_follows_spec [] [tradeOfPnl 10, tradeOfPnl (-5)] (by simp)).1
  rw [h]
  norm_num [tradeOfPnl, List.filter]

/-- C7.  `riskLevel` is the spec's step function of the computed drawdown
percentage: `High` above 20, `Moderate` above 10, else `Low`. -/
theorem riskLevel_follows_spec (sessions : List TradingSession) (trades : List Trade) :
    (calculateUserAnalytics sessions trades).riskLevel =
      if (calculateUserAnalytics sessions trades).maxDrawdown > 20 then RiskLevel.High
      else if (calculateUserAnalytics sessions trades).maxDrawdown > 10 then RiskLevel.Moderate
      else RiskLevel.Low := by
  by_cases h : trades.length = 0
  · simp only [calculateUserAnalytics, if_pos h]
    norm_num
  · simp only [calculateUserAnalytics, if_neg h]

/-- Two filters by incompatible `entry_side` values never cover more than the
whole list. -/
theorem length_filter_long_short_le (l : List Trade) :
    (l.filter (fun t => t.entry_side = "Long")).length +
      (l.filter (fun t => t.entry_side = "Short")).length ≤ l.length := by
  induction l with
  | nil => simp
  | cons t ts ih =>
    by_cases hL : t.entry_side = "Long"
    · have hS : ¬ t.entry_side = "Short" := by rw [hL]; simp
      simp [List.filter_cons, hL, hS]
      omega
    · by_cases hS : t.entry_side = "Short"
      · simp [List.filter_cons, hL, hS]
        omega
      · simp [List.filter_cons, hL, hS]
        omega

/-- C9.  `longTrades` and `shortTrades` count the trades whose `entry_side`
is the string `"Long"` / `"Short"`, and their sum never exceeds
`totalTrades`. -/
theorem long_short_follows_spec (sessions : List TradingSession) (trades : List Trade) :
    (calculateUserAnalytics sessions trades).longTrades =
      (trades.filter (fun t => t.entry_side = "Long")).length ∧
    (calculateUserAnalytics sessions trades).shortTrades =
      (trades.filter (fun t => t.entry_side = "Short")).length ∧
    (calculateUserAnalytics sessions trades).longTrades +
        (calculateUserAnalytics sessions trades).shortTrades ≤
      (calculateUserAnalytics sessions trades).totalTrades := by
  by_cases h : trades.length = 0
  · rw [List.length_eq_zero] at h
    subst h
    simp [calculateUserAnalytics]
  · refine ⟨?_, ?_, ?_⟩ <;> simp only [calculateUserAnalytics, if_neg h]
    exact length_filter_long_short_le trades

/-- C10.  The sessions argument influences only `activeCapital` (the sum of
the sessions' `current_capital`); every other output field is a function of
the trades alone. -/
theorem sessions_only_affect_activeCapital (trades : List Trade)
    (s1 s2 : List TradingSession) :
    (calculateUserAnalytics s1 trades).sharpeRatio =
        (calculateUserAnalytics s2 trades).sharpeRatio ∧
    (calculateUserAnalytics s1 trades).maxDrawdown =
        (calculateUserAnalytics s2 trades).maxDrawdown ∧
    (calculateUserAnalytics s1 trades).maxDrawdownAmount =
        (calculateUserAnalytics s2 trades).maxDrawdownAmount ∧
    (calculateUserAnalytics s1 trades).profitFactor =
        (calculateUserAnalytics s2 trades).profitFactor ∧
    (calculateUserAnalytics s1 trades).totalTrades =
        (calculateUserAnalytics s2 trades).totalTrades ∧
    (calculateUserAnalytics s1 trades).winRate =
        (calculateUserAnalytics s2 trades).winRate ∧
    (calculateUserAnalytics s1 trades).totalPnL =
        (calculateUserAnalytics s2 trades).totalPnL ∧
    (calculateUserAnalytics s1 trades).longTrades =
        (calculateUserAnalytics s2 trades).longTrades ∧
    (calculateUserAnalytics s1 trades).shortTrades =
        (calculateUserAnalytics s2 trades).shortTrades ∧
    (calculateUserAnalytics s1 trades).avgHoldTime =
        (calculateUserAnalytics s2 trades).avgHoldTime ∧
    (calculateUserAnalytics s1 trades).bestTime =
        (calculateUserAnalytics s2 trades).bestTime ∧
    (calculateUserAnalytics s1 trades).avgRiskPerTrade =
        (calculateUserAnalytics s2 trades).avgRiskPerTrade ∧
    (calculateUserAnalytics s1 trades).maxRisk =
        (calculateUserAnalytics s2 trades).maxRisk ∧
    (calculateUserAnalytics s1 trades).bestStreak =
        (calculateUserAnalytics s2 trades).bestStreak ∧
    (calculateUserAnalytics s1 trades).worstStreak =
        (calculateUserAnalytics s2 trades).worstStreak ∧
    (calculateUserAnalytics s1 trades).riskLevel =
        (calculateUserAnalytics s2 trades).riskLevel ∧
    (calculateUserAnalytics s1 trades).activeCapital =
      (s1.map (fun s => s.current_capital)).sum := by
  by_cases h : trades.length = 0
  · simp [calculateUserAnalytics, h, foldl_capital]
  · simp [calculateUserAnalytics, h, foldl_capital]

/-! Lemmas for the checked aggregator: under the source's own guards every
checked operation succeeds. -/

theorem divQ_of_ne (a : ℚ) {b : ℚ} (hb : b ≠ 0) : divQ a b = some (a / b) := by
  rw [divQ, if_neg hb]

theorem checked_profitFactor (P L e : ℚ) :
    (if L > 0 then divQ P L else some e) = some (if L > 0 then P / L else e) := by
  split_ifs with hL
  · rw [divQ, if_neg (ne_of_gt hL)]
  · rfl

theorem checked_sharpe (A σ : ℝ) :
    (if σ > 0 then divR A σ else some 0) = some (if σ > 0 then A / σ else 0) := by
  split_ifs with hσ
  · rw [divR, if_neg (ne_of_gt hσ)]
  · rfl

theorem sqrtR_of_nonneg {x : ℝ} (hx : 0 ≤ x) : sqrtR x = some (Real.sqrt x) := by
  rw [sqrtR, if_neg (not_lt.mpr hx)]

theorem mathMaxChecked_of_ne {l : List ℚ} (h : l ≠ []) :
    mathMaxChecked l = some (mathMax l) := by
  cases l with
  | nil => exact absurd rfl h
  | cons x xs => rfl

theorem drawdownStepChecked_eq (st : DrawdownState) (pl : ℚ) :
    drawdownStepChecked st pl = some (drawdownStep st pl) := by
  simp only [drawdownStepChecked, drawdownStep]
  split_ifs <;> try rfl
  all_goals
    rename_i hp
    rw [divQ, if_neg (ne_of_gt hp)]
    rfl

theorem foldlM_drawdown (l : List Trade) :
    ∀ st : DrawdownState,
      l.foldlM (fun st t => drawdownStepChecked st t.profit_loss) st =
        some (l.foldl (fun st t => drawdownStep st t.profit_loss) st) := by
  induction l with
  | nil => intro st; rfl
  | cons t ts ih =>
    intro st
    rw [List.foldlM_cons, drawdownStepChecked_eq]
    simp only [Option.bind_eq_bind, Option.some_bind]
    rw [List.foldl_cons]
    exact ih _

theorem variance_expr_nonneg (xs : List ℚ) (μ : ℚ) :
    0 ≤ xs.foldl (fun sum r => sum + (r - μ) ^ 2) 0 / (xs.length : ℚ) := by
  apply div_nonneg
  · rw [foldl_add_eq (fun r => (r - μ) ^ 2) xs 0, zero_add]
    apply List.sum_nonneg
    intro x hx
    rw [List.mem_map] at hx
    rcases hx with ⟨r, _, rfl⟩
    positivity
  · exact Nat.cast_nonneg _

/-- C8.  The aggregator is total: the checked variant — which returns `none`
the moment a division by zero, a square root of a negative, or an empty
`Math.max` spread would occur — succeeds on every input and agrees with the
unchecked aggregator.  Every numeric edge case is caught by the source's own
guards. -/
theorem aggregator_total (sessions : List TradingSession) (trades : List Trade) :
    calculateUserAnalyticsChecked sessions trades =
      some (calculateUserAnalytics sessions trades) := by
  by_cases h : trades.length = 0
  · simp only [calculateUserAnalyticsChecked, calculateUserAnalytics, if_pos h]
  · have htne : trades ≠ [] := by
      intro e
      rw [e] at h
      exact h rfl
    have hlen : ((trades.length : ℚ)) ≠ 0 := Nat.cast_ne_zero.mpr h
    have hlen2 : (((trades.map (fun t => t.roi)).length : ℚ)) ≠ 0 := by
      rw [List.length_map]
      exact hlen
    simp only [calculateUserAnalyticsChecked, calculateUserAnalytics, if_neg h]
    rw [checked_profitFactor]
    simp only [Option.bind_eq_bind, Option.some_bind]
    rw [divQ_of_ne _ hlen]
    simp only [Option.bind_eq_bind, Option.some_bind]
    rw [foldlM_drawdown]
    simp only [Option.bind_eq_bind, Option.some_bind]
    rw [divQ_of_ne _ hlen2]
    simp only [Option.bind_eq_bind, Option.some_bind]
    rw [divQ_of_ne _ hlen2]
    simp only [Option.bind_eq_bind, Option.some_bind]
    rw [sqrtR_of_nonneg (by exact_mod_cast variance_expr_nonneg _ _)]
    simp only [Option.bind_eq_bind, Option.some_bind]
    rw [checked_sharpe]
    simp only [Option.bind_eq_bind, Option.some_bind]
    rw [divQ_of_ne _ hlen]
    simp only [Option.bind_eq_bind, Option.some_bind]
    rw [mathMaxChecked_of_ne (by simp [htne])]
    simp only [Option.bind_eq_bind, Option.some_bind]

end Analytics
